import Mathlib

/-!
Shallow embedding of the `autoload` resolution orchestrator of the whatsabi
repository (src/auto.ts) and of its reliability filter `stripUnreliableABI`,
together with theorems settling the frozen claims about them.

Modelling conventions:
- ABI entries are records of optional attributes; an absent JS property is
  `none`.
- Asynchronous effectful collaborators (provider, ABI loader, signature
  lookup) are pure oracles carried in the configuration; a rejected promise
  is `Except.error`.
- The orchestrator returns its result together with a trace of the
  observable effects it performed (progress events, capability calls), so
  that statements such as "no signature-database query is issued" are
  expressible.
- Per-entry enrichment runs concurrently in the source but each task owns
  exactly one entry and the orchestrator joins all of them, so a sequential
  left-to-right pass over the entries computes the same final state. All
  per-entry queries are issued before the join; if any of them rejects, the
  join (Promise.all) rejects and autoload raises with one of the failures.
-/

namespace WhatsABI

/-- Opaque error value carried by a failing capability call. -/
abbrev Err := String

/-- One ABI entry: a tagged record over the attributes occurring in
src/abi.ts usage. `type` is the tag ("function", "event", or anything
else); every other attribute is optional, `none` meaning the JS property
is absent. -/
structure ABIEntry where
  type : String
  selector : Option String := none
  hash : Option String := none
  sig : Option String := none
  sigAlts : Option (List String) := none
  name : Option String := none
  inputs : Option (List String) := none
  outputs : Option (List String) := none
  stateMutability : Option String := none
  payable : Option Bool := none
  constant : Option Bool := none
  anonymous : Option Bool := none
deriving Repr, DecidableEq

/-- An ABI is an ordered sequence of entries. -/
abbrev ABI := List ABIEntry

/-- Provider capability: name resolution and bytecode fetch.
resolveName returns `none` for a null result. -/
structure Provider where
  resolveName : String → Option String
  getCode : String → String

/-- ABI registry capability; a rejected loadABI promise is `Except.error`. -/
structure ABILoader where
  loadABI : String → Except Err ABI

/-- Signature-database capability. The source passes the raw JS property
`a.selector` / `a.hash` (possibly absent) straight to the lookup, hence
the `Option String` argument. A rejected promise is `Except.error`. -/
structure SignatureLookup where
  loadFunctions : Option String → Except Err (List String)
  loadEvents : Option String → Except Err (List String)

/-- The JSON object produced by ethers' `Fragment.from("function " ++ sig).format("json")`:
type "function" plus these keys. `stateMutability` is omitted from the JSON
when the parsed mutability is nonpayable, hence optional; the others are
always present. No selector is ever part of this JSON. -/
structure FuncJson where
  name : String
  constant : Bool
  stateMutability : Option String
  payable : Bool
  inputs : List String
  outputs : List String
deriving Repr, DecidableEq

/-- The JSON object produced by ethers' `Fragment.from("event " ++ sig).format("json")`:
type "event" plus these keys, all always present. No topic hash is ever
part of this JSON. -/
structure EventJson where
  name : String
  anonymous : Bool
  inputs : List String
deriving Repr, DecidableEq

/-- External collaborators of the orchestrator that live in this repository
outside src/auto.ts or in third-party libraries: the bytecode candidate
extractor (src/disasm.ts), the ethers fragment parser, and the default
loader instances exported by src/loaders.ts. `defaultABILoader` and
`defaultSignatureLookup` are object instances, hence truthy in JS. -/
structure Externals where
  abiFromBytecode : String → ABI
  parseFunctionJson : String → FuncJson
  parseEventJson : String → EventJson
  defaultABILoader : ABILoader
  defaultSignatureLookup : SignatureLookup

/-- Per-request configuration (src/auto.ts AutoloadConfig).
For the two disableable capabilities, `none` models the property left
unset (undefined), `some none` models the explicit `false` sentinel, and
`some (some c)` models a capability instance. `onError` returns
`Option Bool`: `none` models a void return. -/
structure AutoloadConfig where
  provider : Provider
  abiLoader : Option (Option ABILoader) := none
  signatureLookup : Option (Option SignatureLookup) := none
  onError : Option (String → Err → Option Bool) := none
  enableExperimentalMetadata : Bool := false

/-- Observable effects of one resolution call, in order of occurrence.
progress carries the phase string passed to onProgress; the others record
capability calls with their argument. -/
inductive Ev where
  | progress (phase : String)
  | resolveName (nameOrAddress : String)
  | loadABI (address : String)
  | getCode (address : String)
  | loadFunctions (selector : Option String)
  | loadEvents (hash : Option String)
deriving Repr, DecidableEq

/-- src/auto.ts isAddress: length 42 and "0x" prefix. The prefix test is
expressed on the character list so that it evaluates by reduction. -/
def isAddress (address : String) : Bool :=
  address.length == 42 && address.data.take 2 == ['0', 'x']

/-- defaultConfig.onError: logs and returns false (continue). -/
def defaultOnError : String → Err → Option Bool := fun _ _ => some false

/-- src/auto.ts stripUnreliableABI: keep only function-type entries, each
reduced to its type tag and selector. -/
def stripUnreliableABI (abi : ABI) : ABI :=
  abi.filterMap fun a =>
    if a.type == "function" then
      some { type := "function", selector := a.selector }
    else
      none

/-- Address normalization step of autoload: an input failing the isAddress
check is resolved as a name via the provider, falling back to the original
input when resolution yields null (or the empty string, which is falsy in
the source's `|| address`). -/
def resolvedAddress (provider : Provider) (address : String) : String :=
  if isAddress address then address
  else
    match provider.resolveName address with
    | none => address
    | some s => if s = "" then address else s

/-- The ABI-registry capability actually used: unset defaults to
defaultABILoader; the false sentinel disables the stage. -/
def configABILoader (ext : Externals) (cfg : AutoloadConfig) : Option ABILoader :=
  match cfg.abiLoader with
  | none => some ext.defaultABILoader
  | some o => o

/-- The signature-lookup capability actually used: unset defaults to
defaultSignatureLookup; the false sentinel disables the stage. -/
def configSignatureLookup (ext : Externals) (cfg : AutoloadConfig) :
    Option SignatureLookup :=
  match cfg.signatureLookup with
  | none => some ext.defaultSignatureLookup
  | some o => o

/-- The bytecode-derived candidate set as autoload uses it: the raw
extractor output, reliability-filtered unless experimental metadata is
enabled. `address` is the already-normalized address. -/
def candidateABI (ext : Externals) (cfg : AutoloadConfig) (address : String) : ABI :=
  let raw := ext.abiFromBytecode (cfg.provider.getCode address)
  if cfg.enableExperimentalMetadata then raw else stripUnreliableABI raw

/-- Enrichment of one function entry from a settled loadFunctions result
`r` (src/auto.ts lines 81 to 96): with at least one hit, sig becomes the
first hit and the JSON parsed from it is Object.assign-ed onto the entry,
its outputs key deleted first when empty so that an existing output list
is kept; with more than one hit, sigAlts becomes the remaining hits. -/
def enrichFunction (parse : String → FuncJson) (a : ABIEntry) (r : List String) :
    ABIEntry :=
  match r with
  | [] => a
  | s0 :: rest =>
    let j := parse ("function " ++ s0)
    let a1 : ABIEntry :=
      { a with
        sig := some s0
        type := "function"
        name := some j.name
        constant := some j.constant
        stateMutability :=
          match j.stateMutability with
          | some m => some m
          | none => a.stateMutability
        payable := some j.payable
        inputs := some j.inputs
        outputs := if j.outputs.isEmpty then a.outputs else some j.outputs }
    if rest.isEmpty then a1 else { a1 with sigAlts := some rest }

/-- Enrichment of one event entry from a settled loadEvents result `r`
(src/auto.ts lines 98 to 106). -/
def enrichEvent (parse : String → EventJson) (a : ABIEntry) (r : List String) :
    ABIEntry :=
  match r with
  | [] => a
  | s0 :: rest =>
    let j := parse ("event " ++ s0)
    let a1 : ABIEntry :=
      { a with
        sig := some s0
        type := "event"
        name := some j.name
        anonymous := some j.anonymous
        inputs := some j.inputs }
    if rest.isEmpty then a1 else { a1 with sigAlts := some rest }

/-- One enrichment task: the query it issues (trace), the entry state it
leaves behind, and the rejection it propagates to the join, if any.
Entries that are neither functions nor events issue no query. -/
def enrichEntry (ext : Externals) (sl : SignatureLookup) (a : ABIEntry) :
    ABIEntry × List Ev × Option Err :=
  if a.type == "function" then
    match sl.loadFunctions a.selector with
    | .ok r => (enrichFunction ext.parseFunctionJson a r, [.loadFunctions a.selector], none)
    | .error e => (a, [.loadFunctions a.selector], some e)
  else if a.type == "event" then
    match sl.loadEvents a.hash with
    | .ok r => (enrichEvent ext.parseEventJson a r, [.loadEvents a.hash], none)
    | .error e => (a, [.loadEvents a.hash], some e)
  else
    (a, [], none)

/-- The enrichment fan-out and join: every entry's query is issued (the
promises are all created before the await), then Promise.all either
rejects with a failure, making autoload raise, or resolves, yielding the
mutated entries in their original order. -/
def enrichAll (ext : Externals) (sl : SignatureLookup) (abi : ABI) (tr : List Ev) :
    Except Err ABI × List Ev :=
  let results := abi.map (enrichEntry ext sl)
  let tr := tr ++ (results.map fun x => x.2.1).flatten
  match results.findSome? (fun x => x.2.2) with
  | some e => (.error e, tr)
  | none => (.ok (results.map fun x => x.1), tr)

/-- Stages 3 to 5 of autoload (src/auto.ts lines 61 to 112): bytecode
fetch, candidate extraction, reliability filtering, then signature
enrichment unless the lookup capability resolves to disabled. -/
def bytecodeStage (ext : Externals) (cfg : AutoloadConfig) (address : String)
    (tr : List Ev) : Except Err ABI × List Ev :=
  let tr := tr ++ [.progress "getCode", .getCode address]
  let abi := candidateABI ext cfg address
  match configSignatureLookup ext cfg with
  | none => (.ok abi, tr)
  | some sl => enrichAll ext sl abi (tr ++ [.progress "signatureLookup"])

/-- Stage 2 of autoload (src/auto.ts lines 49 to 59) followed by the
fallthrough: with a registry capability, a non-empty registry ABI is
returned verbatim; an empty one falls through; a rejection is routed to
the error hook, aborting with the empty ABI exactly when the hook returns
true. -/
def registryStage (ext : Externals) (cfg : AutoloadConfig) (address : String)
    (tr : List Ev) : Except Err ABI × List Ev :=
  match configABILoader ext cfg with
  | none => bytecodeStage ext cfg address tr
  | some loader =>
    let tr := tr ++ [.progress "abiLoader", .loadABI address]
    match loader.loadABI address with
    | .ok abi =>
      if abi.length > 0 then (.ok abi, tr)
      else bytecodeStage ext cfg address tr
    | .error e =>
      if (cfg.onError.getD defaultOnError) "abiLoad" e = some true then
        (.ok ([] : ABI), tr)
      else bytecodeStage ext cfg address tr

/-- The effects of the normalization step: an input that fails the
address check is reported through onProgress and resolved. -/
def resolveTrace (address : String) : List Ev :=
  if isAddress address then []
  else [.progress "resolveName", .resolveName address]

/-- src/auto.ts autoload: normalize the address (emitting resolveName
when the input fails the address check), then run the registry stage and
its fallthroughs. The result is the returned ABI, or an error when the
call raises; second component is the effect trace. -/
def autoload (ext : Externals) (address : String) (cfg : AutoloadConfig) :
    Except Err ABI × List Ev :=
  registryStage ext cfg (resolvedAddress cfg.provider address)
    (resolveTrace address)

/-! Concrete fixtures used by witnesses and counterexamples. -/

/-- A provider that resolves no names and returns a fixed bytecode. -/
def trivialProvider : Provider :=
  { resolveName := fun _ => none, getCode := fun _ => "0xfe" }

/-- A well-formed 42-character address. -/
def addr0 : String := "0x0000000000000000000000000000000000000000"

/-- A bare function candidate entry, as the reliability filter produces. -/
def fnEntry : ABIEntry := { type := "function", selector := some "0x6dbf2fa0" }

/-- A bare event candidate entry. -/
def evEntry : ABIEntry :=
  { type := "event"
    hash := some "0xddf252ad1be2c89b69c2b068fc378daa952ba7f163c4a11628f55a4df523b3ef" }

/-- A signature lookup that knows one function signature and no events. -/
def okLookup : SignatureLookup :=
  { loadFunctions := fun _ => .ok ["call(address,uint256,bytes)"]
    loadEvents := fun _ => .ok [] }

/-- A signature lookup that finds nothing. -/
def emptyLookup : SignatureLookup :=
  { loadFunctions := fun _ => .ok [], loadEvents := fun _ => .ok [] }

/-- A signature lookup whose every query rejects. -/
def failLookup : SignatureLookup :=
  { loadFunctions := fun _ => .error "lookup failed"
    loadEvents := fun _ => .error "lookup failed" }

/-- A registry that knows nothing (empty ABI for every address). -/
def emptyABILoader : ABILoader := { loadABI := fun _ => .ok [] }

/-- The parse of "call(address,uint256,bytes)" as ethers renders it:
nonpayable, so the stateMutability key is absent, and outputs is empty. -/
def sampleFuncJson : FuncJson :=
  { name := "call", constant := false, stateMutability := none, payable := false
    inputs := ["address", "uint256", "bytes"], outputs := [] }

/-- A sample parsed event fragment. -/
def sampleEventJson : EventJson :=
  { name := "Transfer", anonymous := false
    inputs := ["address", "address", "uint256"] }

/-- Externals whose extractor finds one function candidate and whose
default signature lookup knows one signature. -/
def baseExt : Externals :=
  { abiFromBytecode := fun _ => [fnEntry]
    parseFunctionJson := fun _ => sampleFuncJson
    parseEventJson := fun _ => sampleEventJson
    defaultABILoader := emptyABILoader
    defaultSignatureLookup := okLookup }

/-- Configuration with registry and signature stages explicitly disabled
by the false sentinel. -/
def cfgNoLookup : AutoloadConfig :=
  { provider := trivialProvider, abiLoader := some none
    signatureLookup := some none }

/-- A registry entry as a verified source would return it. -/
def regEntry : ABIEntry :=
  { type := "function", selector := some "0x6dbf2fa0"
    sig := some "call(address,uint256,bytes)", name := some "call"
    inputs := some ["address", "uint256", "bytes"] }

/-- A registry that knows one verified ABI for every address. -/
def regLoader : ABILoader := { loadABI := fun _ => .ok [regEntry] }

/-- A registry whose every query rejects. -/
def failingLoader : ABILoader := { loadABI := fun _ => .error "registry down" }

/-- Configuration with a hitting registry and a rejecting signature
lookup: any reachable enrichment would raise. -/
def cfgReg : AutoloadConfig :=
  { provider := trivialProvider, abiLoader := some (some regLoader)
    signatureLookup := some (some failLookup) }

/-- Configuration whose registry rejects and whose error hook aborts. -/
def cfgAbort : AutoloadConfig :=
  { provider := trivialProvider, abiLoader := some (some failingLoader)
    signatureLookup := some none
    onError := some fun _ _ => some true }

/-- Configuration with the registry disabled and a rejecting signature
lookup. -/
def cfgFail : AutoloadConfig :=
  { provider := trivialProvider, abiLoader := some none
    signatureLookup := some (some failLookup) }

/-- Configuration with the registry disabled and the signature lookup
left unset. -/
def cfgUnsetLookup : AutoloadConfig :=
  { provider := trivialProvider, abiLoader := some none }

/-! Helper lemmas. -/

/-- The reliability filter keeps the function entries in order and maps
each to its bare selector record. -/
theorem stripUnreliableABI_eq_filter_map (abi : ABI) :
    stripUnreliableABI abi =
      (abi.filter fun a => a.type == "function").map
        (fun a => { type := "function", selector := a.selector }) := by
  induction abi with
  | nil => rfl
  | cons a rest ih =>
    unfold stripUnreliableABI at ih ⊢
    rw [List.filterMap_cons, List.filter_cons]
    cases hb : a.type == "function"
    · simpa using ih
    · simpa using ih

/-- Every entry produced by the reliability filter is a bare function
record: type "function" and no attribute besides the selector. -/
theorem mem_stripUnreliableABI {abi : ABI} {e : ABIEntry}
    (h : e ∈ stripUnreliableABI abi) :
    e = { type := "function", selector := e.selector } := by
  unfold stripUnreliableABI at h
  rw [List.mem_filterMap] at h
  obtain ⟨a, _, ha⟩ := h
  by_cases hf : a.type == "function"
  · simp only [hf, if_true] at ha
    cases ha
    rfl
  · simp [hf] at ha

/-- Helper: the events emitted by one enrichment task are exactly one
query for a function or event entry and none otherwise, regardless of
whether the query succeeds. -/
theorem enrichEntry_events (ext : Externals) (sl : SignatureLookup) (a : ABIEntry) :
    (a.type = "function" → (enrichEntry ext sl a).2.1 = [.loadFunctions a.selector]) ∧
    (a.type = "event" → (enrichEntry ext sl a).2.1 = [.loadEvents a.hash]) ∧
    (a.type ≠ "function" → a.type ≠ "event" → (enrichEntry ext sl a).2.1 = []) := by
  refine ⟨fun hf => ?_, fun he => ?_, fun hf he => ?_⟩
  · unfold enrichEntry
    rw [if_pos (by simp [hf])]
    cases sl.loadFunctions a.selector <;> rfl
  · unfold enrichEntry
    rw [if_neg (by simp [he]), if_pos (by simp [he])]
    cases sl.loadEvents a.hash <;> rfl
  · unfold enrichEntry
    rw [if_neg (by simp [hf]), if_neg (by simp [he])]

/-- Helper: each event of one enrichment task is a signature-database
query. -/
theorem enrichEntry_events_shape (ext : Externals) (sl : SignatureLookup)
    (a : ABIEntry) :
    ∀ e ∈ (enrichEntry ext sl a).2.1,
      (∃ s, e = Ev.loadFunctions s) ∨ (∃ s, e = Ev.loadEvents s) := by
  intro e he
  unfold enrichEntry at he
  by_cases hf : a.type == "function"
  · rw [if_pos hf] at he
    cases hq : sl.loadFunctions a.selector <;> rw [hq] at he <;>
      simp at he <;> exact Or.inl ⟨_, he⟩
  · rw [if_neg hf] at he
    by_cases hev : a.type == "event"
    · rw [if_pos hev] at he
      cases hq : sl.loadEvents a.hash <;> rw [hq] at he <;>
        simp at he <;> exact Or.inr ⟨_, he⟩
    · rw [if_neg hev] at he
      simp at he

/-- Helper: the trace left by the enrichment join is the given trace
followed by each task's events in entry order, whatever the outcome. -/
theorem enrichAll_trace (ext : Externals) (sl : SignatureLookup)
    (abi : ABI) (tr : List Ev) :
    (enrichAll ext sl abi tr).2 =
      tr ++ ((abi.map (enrichEntry ext sl)).map fun x => x.2.1).flatten := by
  simp only [enrichAll]
  cases (abi.map (enrichEntry ext sl)).findSome? (fun x => x.2.2) <;> rfl

/-- Helper: the enrichment join only appends query events to the given
trace. -/
theorem enrichAll_trace_extends (ext : Externals) (sl : SignatureLookup)
    (abi : ABI) (tr : List Ev) :
    ∃ extra, (enrichAll ext sl abi tr).2 = tr ++ extra ∧
      ∀ e ∈ extra, (∃ s, e = Ev.loadFunctions s) ∨ (∃ s, e = Ev.loadEvents s) := by
  refine ⟨((abi.map (enrichEntry ext sl)).map fun x => x.2.1).flatten,
    enrichAll_trace ext sl abi tr, ?_⟩
  intro e he
  rw [List.mem_flatten] at he
  obtain ⟨l, hl, hel⟩ := he
  rw [List.mem_map] at hl
  obtain ⟨x, hx, hxl⟩ := hl
  rw [List.mem_map] at hx
  obtain ⟨a, _, hax⟩ := hx
  subst hax
  subst hxl
  exact enrichEntry_events_shape ext sl a e hel

/-- Helper: with an (explicit or defaulted) signature-lookup capability,
the bytecode stage is the enrichment join over the candidate set. -/
theorem bytecodeStage_lookup_some (ext : Externals) (cfg : AutoloadConfig)
    (address : String) (tr : List Ev) (sl : SignatureLookup)
    (hS : configSignatureLookup ext cfg = some sl) :
    bytecodeStage ext cfg address tr =
      enrichAll ext sl (candidateABI ext cfg address)
        ((tr ++ [.progress "getCode", .getCode address]) ++
          [.progress "signatureLookup"]) := by
  simp only [bytecodeStage, hS]

/-- Helper: with the signature lookup resolved to disabled, the bytecode
stage returns the candidate set and no query event. -/
theorem bytecodeStage_lookup_none (ext : Externals) (cfg : AutoloadConfig)
    (address : String) (tr : List Ev)
    (hS : configSignatureLookup ext cfg = none) :
    bytecodeStage ext cfg address tr =
      (.ok (candidateABI ext cfg address),
       tr ++ [.progress "getCode", .getCode address]) := by
  simp only [bytecodeStage, hS]

/-- Helper: the registry stage with no capability is the bytecode stage. -/
theorem registryStage_no_loader (ext : Externals) (cfg : AutoloadConfig)
    (address : String) (tr : List Ev) (h : configABILoader ext cfg = none) :
    registryStage ext cfg address tr = bytecodeStage ext cfg address tr := by
  simp only [registryStage, h]

/-- Helper: the registry stage on a resolved loadABI call. -/
theorem registryStage_loader_ok (ext : Externals) (cfg : AutoloadConfig)
    (address : String) (tr : List Ev) (loader : ABILoader) (abi : ABI)
    (hL : configABILoader ext cfg = some loader)
    (hA : loader.loadABI address = .ok abi) :
    registryStage ext cfg address tr =
      if abi.length > 0 then
        (.ok abi, tr ++ [.progress "abiLoader", .loadABI address])
      else
        bytecodeStage ext cfg address
          (tr ++ [.progress "abiLoader", .loadABI address]) := by
  simp only [registryStage, hL, hA]

/-- Helper: the registry stage on a rejected loadABI call. -/
theorem registryStage_loader_error (ext : Externals) (cfg : AutoloadConfig)
    (address : String) (tr : List Ev) (loader : ABILoader) (e : Err)
    (hL : configABILoader ext cfg = some loader)
    (hE : loader.loadABI address = .error e) :
    registryStage ext cfg address tr =
      if (cfg.onError.getD defaultOnError) "abiLoad" e = some true then
        (.ok ([] : ABI), tr ++ [.progress "abiLoader", .loadABI address])
      else
        bytecodeStage ext cfg address
          (tr ++ [.progress "abiLoader", .loadABI address]) := by
  simp only [registryStage, hL, hE]

/-- Helper: the bytecode stage only appends getCode, progress and query
events to the given trace. -/
theorem bytecodeStage_trace_extends (ext : Externals) (cfg : AutoloadConfig)
    (address : String) (tr : List Ev) :
    ∃ extra, (bytecodeStage ext cfg address tr).2 = tr ++ extra ∧
      ∀ n, Ev.resolveName n ∉ extra := by
  cases hS : configSignatureLookup ext cfg with
  | none =>
    rw [bytecodeStage_lookup_none ext cfg address tr hS]
    exact ⟨[.progress "getCode", .getCode address], rfl, by simp⟩
  | some sl =>
    rw [bytecodeStage_lookup_some ext cfg address tr sl hS]
    obtain ⟨extra, hE, hQ⟩ := enrichAll_trace_extends ext sl
      (candidateABI ext cfg address)
      ((tr ++ [.progress "getCode", .getCode address]) ++
        [.progress "signatureLookup"])
    refine ⟨[.progress "getCode", .getCode address] ++
      ([.progress "signatureLookup"] ++ extra), ?_, ?_⟩
    · rw [hE]
      simp
    · intro n hn
      simp only [List.mem_append] at hn
      rcases hn with h | h | h
      · simp at h
      · simp at h
      · rcases hQ _ h with ⟨s, hs⟩ | ⟨s, hs⟩ <;> cases hs

/-- Helper: the registry stage and its fallthroughs only append events
other than resolveName to the given trace. -/
theorem registryStage_trace_extends (ext : Externals) (cfg : AutoloadConfig)
    (address : String) (tr : List Ev) :
    ∃ extra, (registryStage ext cfg address tr).2 = tr ++ extra ∧
      ∀ n, Ev.resolveName n ∉ extra := by
  cases hL : configABILoader ext cfg with
  | none =>
    rw [registryStage_no_loader ext cfg address tr hL]
    exact bytecodeStage_trace_extends ext cfg address tr
  | some loader =>
    have step : ∀ tr' : List Ev,
        (∃ extra, (bytecodeStage ext cfg address
            (tr' ++ [.progress "abiLoader", .loadABI address])).2 =
          (tr' ++ [.progress "abiLoader", .loadABI address]) ++ extra ∧
          ∀ n, Ev.resolveName n ∉ extra) := fun tr' =>
      bytecodeStage_trace_extends ext cfg address _
    cases hA : loader.loadABI address with
    | ok abi =>
      rw [registryStage_loader_ok ext cfg address tr loader abi hL hA]
      by_cases h : abi.length > 0
      · rw [if_pos h]
        exact ⟨[.progress "abiLoader", .loadABI address], rfl, by simp⟩
      · rw [if_neg h]
        obtain ⟨extra, hE, hN⟩ := step tr
        refine ⟨[.progress "abiLoader", .loadABI address] ++ extra, ?_, ?_⟩
        · rw [hE]
          simp
        · intro n hn
          simp only [List.mem_append] at hn
          rcases hn with h' | h'
          · simp at h'
          · exact hN n h'
    | error e =>
      rw [registryStage_loader_error ext cfg address tr loader e hL hA]
      by_cases h : (cfg.onError.getD defaultOnError) "abiLoad" e = some true
      · rw [if_pos h]
        exact ⟨[.progress "abiLoader", .loadABI address], rfl, by simp⟩
      · rw [if_neg h]
        obtain ⟨extra, hE, hN⟩ := step tr
        refine ⟨[.progress "abiLoader", .loadABI address] ++ extra, ?_, ?_⟩
        · rw [hE]
          simp
        · intro n hn
          simp only [List.mem_append] at hn
          rcases hn with h' | h'
          · simp at h'
          · exact hN n h'

/-- Helper: with the registry stage disabled by the false sentinel,
autoload is exactly the bytecode stage at the normalized address. -/
theorem autoload_bytecode_path (ext : Externals) (cfg : AutoloadConfig)
    (address : String) (hA : cfg.abiLoader = some none) :
    autoload ext address cfg =
      bytecodeStage ext cfg (resolvedAddress cfg.provider address)
        (resolveTrace address) := by
  unfold autoload
  exact registryStage_no_loader ext cfg _ _ (by simp [configABILoader, hA])

/-- Helper: every function entry of the candidate set has its query in
the join's trace, whether or not any query fails. -/
theorem enrichAll_queries_in_trace (ext : Externals) (sl : SignatureLookup)
    (abi : ABI) (tr : List Ev) :
    ∀ a ∈ abi, a.type = "function" →
      Ev.loadFunctions a.selector ∈ (enrichAll ext sl abi tr).2 := by
  intro a ha hf
  rw [enrichAll_trace ext sl abi tr]
  refine List.mem_append_right _ ?_
  rw [List.mem_flatten]
  refine ⟨(enrichEntry ext sl a).2.1, ?_, ?_⟩
  · rw [List.mem_map]
    exact ⟨enrichEntry ext sl a, List.mem_map_of_mem _ ha, rfl⟩
  · rw [(enrichEntry_events ext sl a).1 hf]
    simp

/-- Helper: with experimental metadata off, the candidate set is the
reliability-filtered extractor output. -/
theorem candidateABI_strip (ext : Externals) (cfg : AutoloadConfig)
    (address : String) (h : cfg.enableExperimentalMetadata = false) :
    candidateABI ext cfg address =
      stripUnreliableABI (ext.abiFromBytecode (cfg.provider.getCode address)) := by
  unfold candidateABI
  rw [h]
  rfl

/-- Helper: if any entry's query fails, the join rejects and autoload
raises with one of the failures. -/
theorem enrichAll_error_of_mem (ext : Externals) (sl : SignatureLookup)
    (abi : ABI) (tr : List Ev)
    (h : ∃ a ∈ abi, ((enrichEntry ext sl a).2.2).isSome) :
    ∃ e, (enrichAll ext sl abi tr).1 = Except.error e := by
  obtain ⟨a, ha, hs⟩ := h
  simp only [enrichAll]
  cases hF : (abi.map (enrichEntry ext sl)).findSome? (fun x => x.2.2) with
  | some e => exact ⟨e, rfl⟩
  | none =>
    rw [List.findSome?_eq_none_iff] at hF
    have := hF (enrichEntry ext sl a) (List.mem_map_of_mem _ ha)
    rw [this] at hs
    simp at hs

/-! Theorems settling the claims. -/

/-- Claim C9: the reliability filter is idempotent: for every candidate
ABI, applying stripUnreliableABI to the result of stripUnreliableABI
yields the same ABI as applying it once. -/
theorem stripUnreliableABI_idem (abi : ABI) :
    stripUnreliableABI (stripUnreliableABI abi) = stripUnreliableABI abi := by
  induction abi with
  | nil => rfl
  | cons a rest ih =>
    unfold stripUnreliableABI at ih ⊢
    rw [List.filterMap_cons]
    cases hb : a.type == "function"
    · simpa using ih
    · simp only [hb, ite_true]
      rw [List.filterMap_cons]
      simpa using ih

/-- Claim C5: with experimental metadata not enabled, the candidate set
used by autoload is the reliability-filtered extractor output; the filter
retains exactly the function-type entries, each reduced to the bare
selector record, and no event entry survives. -/
theorem candidateABI_reliability_filtered (ext : Externals) (cfg : AutoloadConfig)
    (address : String) (h : cfg.enableExperimentalMetadata = false) :
    candidateABI ext cfg address =
      stripUnreliableABI (ext.abiFromBytecode (cfg.provider.getCode address)) ∧
    candidateABI ext cfg address =
      ((ext.abiFromBytecode (cfg.provider.getCode address)).filter
          fun a => a.type == "function").map
        (fun a => { type := "function", selector := a.selector }) ∧
    ∀ e ∈ candidateABI ext cfg address,
      e = { type := "function", selector := e.selector } ∧ e.type ≠ "event" := by
  have hc : candidateABI ext cfg address =
      stripUnreliableABI (ext.abiFromBytecode (cfg.provider.getCode address)) := by
    unfold candidateABI
    rw [h]
    rfl
  refine ⟨hc, hc.trans (stripUnreliableABI_eq_filter_map _), fun e he => ?_⟩
  rw [hc] at he
  have hshape := mem_stripUnreliableABI he
  refine ⟨hshape, ?_⟩
  rw [hshape]
  simp

/-- Witness for C5 at a concrete configuration: experimental metadata is
off and the candidate set is the bare selector record of the one
extracted function. -/
theorem candidateABI_reliability_filtered_witness :
    cfgNoLookup.enableExperimentalMetadata = false ∧
    candidateABI baseExt cfgNoLookup addr0 = [fnEntry] :=
  ⟨rfl, (candidateABI_reliability_filtered baseExt cfgNoLookup addr0 rfl).1.trans rfl⟩

/-- Claim C7: an entry whose signature-database query settles with zero
signature strings is left completely unchanged by enrichment. -/
theorem enrichEntry_zero_hits_id (ext : Externals) (sl : SignatureLookup)
    (a : ABIEntry) :
    (a.type = "function" → sl.loadFunctions a.selector = .ok [] →
       (enrichEntry ext sl a).1 = a) ∧
    (a.type = "event" → sl.loadEvents a.hash = .ok [] →
       (enrichEntry ext sl a).1 = a) := by
  constructor
  · intro hf hq
    unfold enrichEntry
    rw [if_pos (by simp [hf]), hq]
    rfl
  · intro he hq
    unfold enrichEntry
    rw [if_neg (by simp [he]), if_pos (by simp [he]), hq]
    rfl

/-- Witness for C7: a zero-hit lookup leaves the bare function entry
exactly as it was. -/
theorem enrichEntry_zero_hits_id_witness :
    (enrichEntry baseExt emptyLookup fnEntry).1 = fnEntry :=
  (enrichEntry_zero_hits_id baseExt emptyLookup fnEntry).1 rfl rfl

/-- Claim C10: enrichment preserves an entry's identifying fields: after
its query settles with any outcome, the entry's type, selector and hash
equal their pre-enrichment values (the parsed fragment JSON carries no
selector or hash, and its type tag coincides with the entry's). -/
theorem enrichEntry_preserves_identity (ext : Externals) (sl : SignatureLookup)
    (a : ABIEntry) :
    (enrichEntry ext sl a).1.type = a.type ∧
    (enrichEntry ext sl a).1.selector = a.selector ∧
    (enrichEntry ext sl a).1.hash = a.hash := by
  unfold enrichEntry
  by_cases hf : a.type = "function"
  · rw [if_pos (by simp [hf])]
    cases hr : sl.loadFunctions a.selector with
    | error e => exact ⟨rfl, rfl, rfl⟩
    | ok r =>
      unfold enrichFunction
      cases r with
      | nil => exact ⟨rfl, rfl, rfl⟩
      | cons s0 rest => cases rest <;> simp [hf]
  · rw [if_neg (by simp [hf])]
    by_cases he : a.type = "event"
    · rw [if_pos (by simp [he])]
      cases hr : sl.loadEvents a.hash with
      | error e => exact ⟨rfl, rfl, rfl⟩
      | ok r =>
        unfold enrichEvent
        cases r with
        | nil => exact ⟨rfl, rfl, rfl⟩
        | cons s0 rest => cases rest <;> simp [he]
    · rw [if_neg (by simp [he])]
      exact ⟨rfl, rfl, rfl⟩

/-- Helper: the normalization trace holds nothing but the resolveName
progress event and the resolveName call. -/
theorem resolveTrace_events (address : String) (e : Ev)
    (he : e ∈ resolveTrace address) :
    e = Ev.progress "resolveName" ∨ e = Ev.resolveName address := by
  unfold resolveTrace at he
  cases h : isAddress address <;> rw [h] at he <;> simp at he
  rcases he with h1 | h1
  · exact Or.inl h1
  · exact Or.inr h1

/-- Helper: the trace accumulated by the time the registry stage returns
a hit contains no bytecode-stage or enrichment event. -/
theorem registryTrace_no_bytecode_events (address addr2 : String) :
    (∀ s, Ev.getCode s ∉
      resolveTrace address ++ [Ev.progress "abiLoader", Ev.loadABI addr2]) ∧
    (∀ s, Ev.loadFunctions s ∉
      resolveTrace address ++ [Ev.progress "abiLoader", Ev.loadABI addr2]) ∧
    (∀ s, Ev.loadEvents s ∉
      resolveTrace address ++ [Ev.progress "abiLoader", Ev.loadABI addr2]) := by
  refine ⟨?_, ?_, ?_⟩ <;> intro s hs <;>
    rcases List.mem_append.mp hs with h | h <;>
    first
      | (rcases resolveTrace_events address _ h with h1 | h1 <;> simp at h1)
      | simp at h

/-- Claim C2: on a registry-lookup failure, a hook returning true aborts
immediately with the empty ABI (nothing accumulated at that stage); a
hook returning anything else, or an absent hook (whose default returns
false), swallows the error and continues to the bytecode fallback. -/
theorem registryFailure_error_hook (ext : Externals) (cfg : AutoloadConfig)
    (address : String) (loader : ABILoader) (e : Err)
    (hL : configABILoader ext cfg = some loader)
    (hE : loader.loadABI (resolvedAddress cfg.provider address) = .error e) :
    ((cfg.onError.getD defaultOnError) "abiLoad" e = some true →
      autoload ext address cfg =
        (.ok ([] : ABI),
         resolveTrace address ++
           [.progress "abiLoader",
            .loadABI (resolvedAddress cfg.provider address)])) ∧
    ((cfg.onError.getD defaultOnError) "abiLoad" e ≠ some true →
      autoload ext address cfg =
        bytecodeStage ext cfg (resolvedAddress cfg.provider address)
          (resolveTrace address ++
           [.progress "abiLoader",
            .loadABI (resolvedAddress cfg.provider address)])) ∧
    (cfg.onError = none →
      autoload ext address cfg =
        bytecodeStage ext cfg (resolvedAddress cfg.provider address)
          (resolveTrace address ++
           [.progress "abiLoader",
            .loadABI (resolvedAddress cfg.provider address)])) := by
  have h := registryStage_loader_error ext cfg
    (resolvedAddress cfg.provider address) (resolveTrace address) loader e hL hE
  have hauto : autoload ext address cfg =
      registryStage ext cfg (resolvedAddress cfg.provider address)
        (resolveTrace address) := rfl
  refine ⟨fun ht => ?_, fun hf => ?_, fun habs => ?_⟩
  · rw [hauto, h, if_pos ht]
  · rw [hauto, h, if_neg hf]
  · rw [hauto, h, if_neg (by simp [habs, defaultOnError])]

/-- Witness for C2: with a rejecting registry and an aborting hook,
autoload returns the empty ABI right after the registry stage. -/
theorem registryFailure_error_hook_witness :
    autoload baseExt addr0 cfgAbort =
      (Except.ok ([] : ABI), [Ev.progress "abiLoader", Ev.loadABI addr0]) := by
  have h := (registryFailure_error_hook baseExt cfgAbort addr0 failingLoader
    "registry down" rfl rfl).1 rfl
  exact h.trans (by rfl)

/-- Claim C4: when the registry query resolves with one or more entries,
autoload returns that ABI verbatim and performs no bytecode-stage effect
(no getCode fetch, no signature query); with zero entries it falls
through to the bytecode stage. -/
theorem registry_hit_returns_verbatim (ext : Externals) (cfg : AutoloadConfig)
    (address : String) (loader : ABILoader) (abi : ABI)
    (hL : configABILoader ext cfg = some loader)
    (hA : loader.loadABI (resolvedAddress cfg.provider address) = .ok abi) :
    (abi.length > 0 →
      autoload ext address cfg =
        (.ok abi,
         resolveTrace address ++
           [.progress "abiLoader",
            .loadABI (resolvedAddress cfg.provider address)]) ∧
      (∀ s, Ev.getCode s ∉ (autoload ext address cfg).2) ∧
      (∀ s, Ev.loadFunctions s ∉ (autoload ext address cfg).2) ∧
      (∀ s, Ev.loadEvents s ∉ (autoload ext address cfg).2)) ∧
    (abi.length = 0 →
      autoload ext address cfg =
        bytecodeStage ext cfg (resolvedAddress cfg.provider address)
          (resolveTrace address ++
           [.progress "abiLoader",
            .loadABI (resolvedAddress cfg.provider address)])) := by
  have h := registryStage_loader_ok ext cfg
    (resolvedAddress cfg.provider address) (resolveTrace address) loader abi hL hA
  have hauto : autoload ext address cfg =
      registryStage ext cfg (resolvedAddress cfg.provider address)
        (resolveTrace address) := rfl
  constructor
  · intro hpos
    have heq : autoload ext address cfg =
        (.ok abi,
         resolveTrace address ++
           [.progress "abiLoader",
            .loadABI (resolvedAddress cfg.provider address)]) := by
      rw [hauto, h, if_pos hpos]
    obtain ⟨hg, hf, hev⟩ := registryTrace_no_bytecode_events address
      (resolvedAddress cfg.provider address)
    refine ⟨heq, fun s hs => ?_, fun s hs => ?_, fun s hs => ?_⟩ <;>
      rw [heq] at hs
    · exact hg s hs
    · exact hf s hs
    · exact hev s hs
  · intro hzero
    rw [hauto, h, if_neg (by simp [hzero])]

/-- Witness for C4: with a registry knowing one entry, autoload returns
it verbatim and the trace shows no getCode and no query. -/
theorem registry_hit_returns_verbatim_witness :
    autoload baseExt addr0 cfgReg =
      (Except.ok [regEntry], [Ev.progress "abiLoader", Ev.loadABI addr0]) := by
  have h := ((registry_hit_returns_verbatim baseExt cfgReg addr0 regLoader
    [regEntry] rfl rfl).1 (by simp)).1
  exact h.trans (by rfl)

/-- Claim C6: a function entry whose query settles with at least one hit
gets the first hit as its resolved signature, the remaining hits in order
as its alternates, and the fields parsed from the first hit merged in,
with an empty parsed output list never overwriting the entry's outputs. -/
theorem enrichFunction_hit (parse : String → FuncJson) (a : ABIEntry)
    (s0 : String) (rest : List String) (hAlts : a.sigAlts = none) :
    (enrichFunction parse a (s0 :: rest)).sig = some s0 ∧
    (enrichFunction parse a (s0 :: rest)).sigAlts.getD [] = rest ∧
    (enrichFunction parse a (s0 :: rest)).name =
      some (parse ("function " ++ s0)).name ∧
    (enrichFunction parse a (s0 :: rest)).inputs =
      some (parse ("function " ++ s0)).inputs ∧
    (enrichFunction parse a (s0 :: rest)).constant =
      some (parse ("function " ++ s0)).constant ∧
    (enrichFunction parse a (s0 :: rest)).payable =
      some (parse ("function " ++ s0)).payable ∧
    (∀ m, (parse ("function " ++ s0)).stateMutability = some m →
      (enrichFunction parse a (s0 :: rest)).stateMutability = some m) ∧
    ((parse ("function " ++ s0)).outputs = [] →
      (enrichFunction parse a (s0 :: rest)).outputs = a.outputs) ∧
    ((parse ("function " ++ s0)).outputs ≠ [] →
      (enrichFunction parse a (s0 :: rest)).outputs =
        some (parse ("function " ++ s0)).outputs) := by
  cases rest with
  | nil =>
    refine ⟨rfl, ?_, rfl, rfl, rfl, rfl, fun m hm => ?_, fun ho => ?_, fun ho => ?_⟩
    · simp [enrichFunction, hAlts]
    · simp [enrichFunction, hm]
    · simp [enrichFunction, ho]
    · simp [enrichFunction, ho]
  | cons r1 rs =>
    refine ⟨rfl, ?_, rfl, rfl, rfl, rfl, fun m hm => ?_, fun ho => ?_, fun ho => ?_⟩
    · simp [enrichFunction]
    · simp [enrichFunction, hm]
    · simp [enrichFunction, ho]
    · simp [enrichFunction, ho]

/-- Witness for C6: enriching the bare entry with one hit whose parse
has empty outputs sets the signature and keeps outputs absent. -/
theorem enrichFunction_hit_witness :
    (enrichFunction (fun _ => sampleFuncJson) fnEntry
      ["call(address,uint256,bytes)"]).sig = some "call(address,uint256,bytes)" ∧
    (enrichFunction (fun _ => sampleFuncJson) fnEntry
      ["call(address,uint256,bytes)"]).outputs = none :=
  ⟨(enrichFunction_hit (fun _ => sampleFuncJson) fnEntry
      "call(address,uint256,bytes)" [] rfl).1,
   ((enrichFunction_hit (fun _ => sampleFuncJson) fnEntry
      "call(address,uint256,bytes)" [] rfl).2.2.2.2.2.2.2.1 rfl).trans rfl⟩

/-- Claim C8: an input failing the fixed-length address-format check of
isAddress (length 42 with the 0x prefix, the spec's normalization
invariant) is resolved as a name, with the resolveName progress event
emitted and the provider's result used as the address, falling back to
the original input when resolution yields nothing; an input passing the
check triggers no name resolution. -/
theorem autoload_address_normalization (ext : Externals) (cfg : AutoloadConfig)
    (address : String) :
    (isAddress address = false →
      autoload ext address cfg =
        registryStage ext cfg (resolvedAddress cfg.provider address)
          [.progress "resolveName", .resolveName address] ∧
      Ev.progress "resolveName" ∈ (autoload ext address cfg).2 ∧
      Ev.resolveName address ∈ (autoload ext address cfg).2 ∧
      (∀ s, cfg.provider.resolveName address = some s → s ≠ "" →
        resolvedAddress cfg.provider address = s) ∧
      (cfg.provider.resolveName address = none →
        resolvedAddress cfg.provider address = address)) ∧
    (isAddress address = true →
      autoload ext address cfg = registryStage ext cfg address [] ∧
      ∀ n, Ev.resolveName n ∉ (autoload ext address cfg).2) := by
  constructor
  · intro hna
    have htr : resolveTrace address =
        [.progress "resolveName", .resolveName address] := by
      unfold resolveTrace
      rw [if_neg (by simp [hna])]
    have hauto : autoload ext address cfg =
        registryStage ext cfg (resolvedAddress cfg.provider address)
          [.progress "resolveName", .resolveName address] := by
      unfold autoload
      rw [htr]
    obtain ⟨extra, hE, hN⟩ := registryStage_trace_extends ext cfg
      (resolvedAddress cfg.provider address)
      [.progress "resolveName", .resolveName address]
    rw [← hauto] at hE
    refine ⟨hauto, ?_, ?_, fun s hres hne => ?_, fun hres => ?_⟩
    · rw [hE]
      exact List.mem_append_left _ (by simp)
    · rw [hE]
      exact List.mem_append_left _ (by simp)
    · unfold resolvedAddress
      rw [if_neg (by simp [hna]), hres]
      show (if s = "" then address else s) = s
      rw [if_neg hne]
    · unfold resolvedAddress
      rw [if_neg (by simp [hna]), hres]
  · intro ha
    have hra : resolvedAddress cfg.provider address = address := by
      unfold resolvedAddress
      rw [if_pos (by simp [ha])]
    have htr : resolveTrace address = [] := by
      unfold resolveTrace
      rw [if_pos (by simp [ha])]
    have hauto : autoload ext address cfg = registryStage ext cfg address [] := by
      unfold autoload
      rw [htr, hra]
    obtain ⟨extra, hE, hN⟩ := registryStage_trace_extends ext cfg address []
    refine ⟨hauto, fun n hn => ?_⟩
    rw [hauto, hE] at hn
    simp only [List.nil_append] at hn
    exact hN n hn

/-- Witness for C8: a name input produces the resolveName progress event
and, the provider resolving nothing, keeps the original input. -/
theorem autoload_address_normalization_witness :
    Ev.progress "resolveName" ∈ (autoload baseExt "vitalik.eth" cfgNoLookup).2 ∧
    resolvedAddress trivialProvider "vitalik.eth" = "vitalik.eth" := by
  have h := (autoload_address_normalization baseExt cfgNoLookup "vitalik.eth").1 rfl
  exact ⟨h.2.1, h.2.2.2.2 rfl⟩

/-- Counterexample to claim C1: with the signature lookup enabled and
the one per-entry query rejecting, autoload does not return the merged
ABI without raising: the rejection propagates through the join and the
call raises. -/
theorem lookupFailure_raises_cex :
    failLookup.loadFunctions fnEntry.selector = Except.error "lookup failed" ∧
    (autoload baseExt addr0 cfgFail).1 = Except.error "lookup failed" :=
  ⟨rfl, rfl⟩

/-- Claim C1 amended: a rejecting per-entry signature-database query is
distinguished from a zero-result query: every entry's query is still
issued before the join, but the join rejects and autoload raises with
one of the failures instead of returning the merged ABI. -/
theorem lookupFailure_raises (ext : Externals) (cfg : AutoloadConfig)
    (address : String) (sl : SignatureLookup)
    (hA : cfg.abiLoader = some none)
    (hS : cfg.signatureLookup = some (some sl))
    (hFail : ∃ a ∈ candidateABI ext cfg (resolvedAddress cfg.provider address),
        ((enrichEntry ext sl a).2.2).isSome) :
    (∃ e, (autoload ext address cfg).1 = Except.error e) ∧
    ∀ a ∈ candidateABI ext cfg (resolvedAddress cfg.provider address),
      a.type = "function" →
        Ev.loadFunctions a.selector ∈ (autoload ext address cfg).2 := by
  have h1 := autoload_bytecode_path ext cfg address hA
  have hS' : configSignatureLookup ext cfg = some sl := by
    simp [configSignatureLookup, hS]
  have h2 := bytecodeStage_lookup_some ext cfg
    (resolvedAddress cfg.provider address) (resolveTrace address) sl hS'
  rw [h1, h2]
  exact ⟨enrichAll_error_of_mem ext sl _ _ hFail,
    enrichAll_queries_in_trace ext sl _ _⟩

/-- Witness for the amended C1 at the concrete failing configuration. -/
theorem lookupFailure_raises_witness :
    (∃ e, (autoload baseExt addr0 cfgFail).1 = Except.error e) ∧
    Ev.loadFunctions (some "0x6dbf2fa0") ∈ (autoload baseExt addr0 cfgFail).2 := by
  have h := lookupFailure_raises baseExt cfgFail addr0 failLookup rfl rfl
    ⟨fnEntry, by decide, by decide⟩
  exact ⟨h.1, h.2 fnEntry (by decide) rfl⟩

/-- Counterexample to claim C3: a request whose signatureLookup is left
unset does not skip the signature stage: the default signature lookup is
consulted (a query event appears in the trace) and the result is not the
reliability-filtered candidate set as-is. -/
theorem signatureLookup_unset_cex :
    cfgUnsetLookup.signatureLookup = none ∧
    Ev.loadFunctions (some "0x6dbf2fa0") ∈
      (autoload baseExt addr0 cfgUnsetLookup).2 ∧
    candidateABI baseExt cfgUnsetLookup addr0 = [fnEntry] ∧
    (autoload baseExt addr0 cfgUnsetLookup).1 =
      Except.ok [{ fnEntry with
        sig := some "call(address,uint256,bytes)"
        name := some "call"
        inputs := some ["address", "uint256", "bytes"]
        payable := some false
        constant := some false }] ∧
    ({ fnEntry with
        sig := some "call(address,uint256,bytes)"
        name := some "call"
        inputs := some ["address", "uint256", "bytes"]
        payable := some false
        constant := some false } : ABIEntry) ≠ fnEntry :=
  ⟨rfl, by decide, rfl, rfl, by decide⟩

/-- Claim C3 amended: only the explicit false sentinel disables the
signature stage, making autoload return the reliability-filtered
candidate set as-is with no signature-database query; a signatureLookup
left unset defaults to the default signature lookup, so per-entry
queries are issued. -/
theorem signatureLookup_config (ext : Externals) (cfg : AutoloadConfig)
    (address : String) (hA : cfg.abiLoader = some none)
    (hM : cfg.enableExperimentalMetadata = false) :
    (cfg.signatureLookup = some none →
      autoload ext address cfg =
        (.ok (stripUnreliableABI (ext.abiFromBytecode
            (cfg.provider.getCode (resolvedAddress cfg.provider address)))),
         resolveTrace address ++
           [.progress "getCode",
            .getCode (resolvedAddress cfg.provider address)]) ∧
      (∀ s, Ev.loadFunctions s ∉ (autoload ext address cfg).2) ∧
      (∀ s, Ev.loadEvents s ∉ (autoload ext address cfg).2)) ∧
    (cfg.signatureLookup = none →
      ∀ a ∈ candidateABI ext cfg (resolvedAddress cfg.provider address),
        a.type = "function" →
          Ev.loadFunctions a.selector ∈ (autoload ext address cfg).2) := by
  have h1 := autoload_bytecode_path ext cfg address hA
  constructor
  · intro hS
    have hS' : configSignatureLookup ext cfg = none := by
      simp [configSignatureLookup, hS]
    have h2 := bytecodeStage_lookup_none ext cfg
      (resolvedAddress cfg.provider address) (resolveTrace address) hS'
    have heq : autoload ext address cfg =
        (.ok (stripUnreliableABI (ext.abiFromBytecode
            (cfg.provider.getCode (resolvedAddress cfg.provider address)))),
         resolveTrace address ++
           [.progress "getCode",
            .getCode (resolvedAddress cfg.provider address)]) := by
      rw [h1, h2, candidateABI_strip ext cfg _ hM]
    refine ⟨heq, fun s hs => ?_, fun s hs => ?_⟩ <;> rw [heq] at hs <;>
      rcases List.mem_append.mp hs with h' | h'
    · rcases resolveTrace_events address _ h' with h1 | h1 <;> simp at h1
    · simp at h'
    · rcases resolveTrace_events address _ h' with h1 | h1 <;> simp at h1
    · simp at h'
  · intro hS
    have hS' : configSignatureLookup ext cfg =
        some ext.defaultSignatureLookup := by
      simp [configSignatureLookup, hS]
    have h2 := bytecodeStage_lookup_some ext cfg
      (resolvedAddress cfg.provider address) (resolveTrace address) _ hS'
    rw [h1, h2]
    exact enrichAll_queries_in_trace ext ext.defaultSignatureLookup _ _

/-- Witness for the amended C3: with the explicit false sentinel the
result is the bare filtered candidate set and the only effects are the
getCode fetch and its progress event. -/
theorem signatureLookup_config_witness :
    autoload baseExt addr0 cfgNoLookup =
      (Except.ok [fnEntry], [Ev.progress "getCode", Ev.getCode addr0]) := by
  have h := ((signatureLookup_config baseExt cfgNoLookup addr0 rfl rfl).1 rfl).1
  exact h.trans (by rfl)

end WhatsABI
